import Mathlib

/-!
# Verification of the aioweb request/response pipeline and ORM layer

This development shallowly embeds the `aioweb` Python package:

* `async_web.py` — signature inspection (`get_required_kwargs`,
  `get_named_kwargs`, `has_named_kwargs`, `has_var_kwarg`,
  `has_request_arg`), the per-request argument binder
  (`RequestHandler.__call__`) and the response coercer
  (`response_factory`);
* `orm.py` — `execute`, and the entity-class processing done by
  `ModelMetaClass.__new__`;
* `custom_errors.py` — the `APIError` family.

JSON values appearing in request bodies and handler results are modelled
by the mutual inductive `Json`/`JsonList`/`JsonKVs` below, together with
an executable embedding of `json.dumps(·, ensure_ascii=False)` and of a
standard JSON parser (`json.loads` is external to the repository, so the
parser is modelled from the JSON grammar it implements).
-/

namespace Aioweb

mutual

/-- JSON values (the payloads `json.dumps` serializes: `None`, `bool`,
`int`, `str`, `list`, `dict` with string keys).  Mutual with explicit
list types so that all recursion below is structural. -/
inductive Json where
  | null : Json
  | bool (b : Bool) : Json
  | int (n : Int) : Json
  | str (s : String) : Json
  | arr (xs : JsonList) : Json
  | obj (kvs : JsonKVs) : Json
deriving DecidableEq

inductive JsonList where
  | nil : JsonList
  | cons (hd : Json) (tl : JsonList) : JsonList
deriving DecidableEq

inductive JsonKVs where
  | nil : JsonKVs
  | cons (k : String) (v : Json) (tl : JsonKVs) : JsonKVs
deriving DecidableEq

end

/-- Key lookup in a JSON object, as Python `dict.get`. -/
def JsonKVs.get : JsonKVs → String → Option Json
  | .nil, _ => none
  | .cons k v tl, key => if k = key then some v else tl.get key

/-- Key membership in a JSON object (`key in dict`). -/
def JsonKVs.hasKey (kvs : JsonKVs) (key : String) : Bool :=
  (kvs.get key).isSome

/-- Digit character for a decimal digit. -/
def digitToChar : Nat → Char
  | 0 => '0' | 1 => '1' | 2 => '2' | 3 => '3' | 4 => '4'
  | 5 => '5' | 6 => '6' | 7 => '7' | 8 => '8' | _ => '9'

/-- Lower-case hexadecimal digit character, as Python's `'%04x'`. -/
def lowHexChar : Nat → Char
  | 0 => '0' | 1 => '1' | 2 => '2' | 3 => '3' | 4 => '4'
  | 5 => '5' | 6 => '6' | 7 => '7' | 8 => '8' | 9 => '9'
  | 10 => 'a' | 11 => 'b' | 12 => 'c' | 13 => 'd' | 14 => 'e' | _ => 'f'

/-- Decimal digit characters of a natural number (Python `repr` of a
non-negative `int`). -/
def natToChars (m : Nat) : List Char :=
  if m = 0 then ['0'] else ((Nat.digits 10 m).map digitToChar).reverse

/-- Characters of Python `repr` of an `int`. -/
def intToChars (n : Int) : List Char :=
  if n < 0 then '-' :: natToChars n.natAbs else natToChars n.natAbs

/-- One character escaped as by Python's `json.dumps` with
`ensure_ascii=False`: backslash, double quote and the C0 control
characters are escaped (`\b \t \n \f \r` shortcuts, `\u00xx`
otherwise); everything else is passed through. -/
def escChar (c : Char) : List Char :=
  if c = '\\' then ['\\', '\\']
  else if c = '"' then ['\\', '"']
  else if c = '\n' then ['\\', 'n']
  else if c = '\t' then ['\\', 't']
  else if c = '\r' then ['\\', 'r']
  else if c.toNat = 8 then ['\\', 'b']
  else if c.toNat = 12 then ['\\', 'f']
  else if c.toNat < 32 then
    '\\' :: 'u' :: '0' :: '0' :: lowHexChar (c.toNat / 16) :: [lowHexChar (c.toNat % 16)]
  else [c]

/-- Escape a character sequence for a JSON string literal. -/
def escChars : List Char → List Char
  | [] => []
  | c :: cs => escChar c ++ escChars cs

mutual

/-- Characters of `json.dumps(·, ensure_ascii=False)` (default
separators `', '` and `': '`). -/
def dumpsChars : Json → List Char
  | .null => "null".data
  | .bool true => "true".data
  | .bool false => "false".data
  | .int n => intToChars n
  | .str s => '"' :: (escChars s.data ++ ['"'])
  | .arr xs => '[' :: (dumpsList xs ++ [']'])
  | .obj kvs => '{' :: (dumpsKVs kvs ++ ['}'])

/-- Array elements, `', '`-separated. -/
def dumpsList : JsonList → List Char
  | .nil => []
  | .cons x .nil => dumpsChars x
  | .cons x tl => dumpsChars x ++ (',' :: ' ' :: dumpsList tl)

/-- Object entries, `', '`-separated, `': '` between key and value. -/
def dumpsKVs : JsonKVs → List Char
  | .nil => []
  | .cons k v .nil => '"' :: (escChars k.data ++ ('"' :: ':' :: ' ' :: dumpsChars v))
  | .cons k v tl =>
      '"' :: (escChars k.data ++ ('"' :: ':' :: ' ' :: dumpsChars v)) ++
        (',' :: ' ' :: dumpsKVs tl)

end

/-- `json.dumps(j, ensure_ascii=False)` as a `String`. -/
def json_dumps (j : Json) : String := ⟨dumpsChars j⟩

/-! ## A JSON parser

`json.loads` lives in the Python standard library, outside this
repository; the parser below is modelled from the JSON grammar it
implements (strict mode: unescaped control characters are rejected
inside strings).  Floating-point literals are outside the model. -/

/-- JSON insignificant whitespace. -/
def isWs (c : Char) : Bool :=
  c = ' ' || c = '\n' || c = '\t' || c = '\r'

/-- Skip insignificant whitespace. -/
def skipWs (s : List Char) : List Char := s.dropWhile isWs

/-- Numeric value of a string of decimal digit characters. -/
def charsToNat (l : List Char) : Nat :=
  l.foldl (fun a c => 10 * a + (c.toNat - 48)) 0

/-- Parse a non-empty run of decimal digits. -/
def parseNat (s : List Char) : Option (Nat × List Char) :=
  let p := s.span Char.isDigit
  if p.1.isEmpty then none else some (charsToNat p.1, p.2)

/-- Hexadecimal digit character test. -/
def isHexDigitChar (c : Char) : Bool :=
  c.isDigit || ('a' ≤ c && c ≤ 'f') || ('A' ≤ c && c ≤ 'F')

/-- Numeric value of a hexadecimal digit character. -/
def hexVal (c : Char) : Nat :=
  if c.isDigit then c.toNat - 48
  else if 'a' ≤ c ∧ c ≤ 'f' then c.toNat - 87
  else c.toNat - 55

/-- Decode one escape sequence (the backslash already consumed):
returns the denoted character and the rest of the input. -/
def parseStrEsc : List Char → Option (Char × List Char)
  | '"' :: r => some ('"', r)
  | '\\' :: r => some ('\\', r)
  | '/' :: r => some ('/', r)
  | 'n' :: r => some ('\n', r)
  | 't' :: r => some ('\t', r)
  | 'r' :: r => some ('\r', r)
  | 'b' :: r => some (Char.ofNat 8, r)
  | 'f' :: r => some (Char.ofNat 12, r)
  | 'u' :: h1 :: h2 :: h3 :: h4 :: r =>
    if isHexDigitChar h1 && isHexDigitChar h2 && isHexDigitChar h3 && isHexDigitChar h4 then
      some (Char.ofNat (4096 * hexVal h1 + 256 * hexVal h2 + 16 * hexVal h3 + hexVal h4), r)
    else none
  | _ => none

/-- Parse the body of a JSON string literal (the opening quote already
consumed), returning its characters and the input after the closing
quote. -/
def parseStrBody : Nat → List Char → Option (List Char × List Char)
  | 0, _ => none
  | _ + 1, [] => none
  | f + 1, c :: r =>
    if c = '"' then some ([], r)
    else if c = '\\' then
      match parseStrEsc r with
      | some (e, r') => (fun p => (e :: p.1, p.2)) <$> parseStrBody f r'
      | none => none
    else if c.toNat < 32 then none
    else (fun p => (c :: p.1, p.2)) <$> parseStrBody f r

/-- Recognise the tail of the literal `null` (after its first char). -/
def parseLitNull : List Char → Option (Json × List Char)
  | 'u' :: 'l' :: 'l' :: r => some (.null, r)
  | _ => none

/-- Recognise the tail of the literal `true` (after its first char). -/
def parseLitTrue : List Char → Option (Json × List Char)
  | 'r' :: 'u' :: 'e' :: r => some (.bool true, r)
  | _ => none

/-- Recognise the tail of the literal `false` (after its first char). -/
def parseLitFalse : List Char → Option (Json × List Char)
  | 'a' :: rest =>
    match rest with
    | 'l' :: 's' :: 'e' :: r => some (.bool false, r)
    | _ => none
  | _ => none

mutual

/-- Parse one JSON value (fuelled; fuel bounds the nesting work). -/
def parseVal : Nat → List Char → Option (Json × List Char)
  | 0, _ => none
  | f + 1, s =>
    match skipWs s with
    | [] => none
    | c :: r =>
      if c = 'n' then parseLitNull r
      else if c = 't' then parseLitTrue r
      else if c = 'f' then parseLitFalse r
      else if c = '"' then
        match parseStrBody (r.length + 1) r with
        | some (cs, r') => some (.str ⟨cs⟩, r')
        | none => none
      else if c = '[' then
        match parseItems f r with
        | some (xs, r') => some (.arr xs, r')
        | none => none
      else if c = '{' then
        match parseEntries f r with
        | some (kvs, r') => some (.obj kvs, r')
        | none => none
      else if c = '-' then
        match parseNat r with
        | some (m, r') => some (.int (-(m : Int)), r')
        | none => none
      else if c.isDigit then
        match parseNat (c :: r) with
        | some (m, r') => some (.int (m : Int), r')
        | none => none
      else none

/-- Parse array elements after the opening bracket. -/
def parseItems : Nat → List Char → Option (JsonList × List Char)
  | 0, _ => none
  | f + 1, s =>
    match skipWs s with
    | [] => none
    | c :: r =>
      if c = ']' then some (.nil, r)
      else
        match parseVal f (c :: r) with
        | some (x, r₁) =>
          match skipWs r₁ with
          | [] => none
          | c' :: r₂ =>
            if c' = ',' then
              match parseItems f r₂ with
              | some (xs, r₃) => some (.cons x xs, r₃)
              | none => none
            else if c' = ']' then some (.cons x .nil, r₂)
            else none
        | none => none

/-- Parse object entries after the opening brace. -/
def parseEntries : Nat → List Char → Option (JsonKVs × List Char)
  | 0, _ => none
  | f + 1, s =>
    match skipWs s with
    | [] => none
    | c :: r =>
      if c = '}' then some (.nil, r)
      else if c = '"' then
        match parseStrBody (r.length + 1) r with
        | some (k, r₁) =>
          match skipWs r₁ with
          | [] => none
          | c₁ :: r₂ =>
            if c₁ = ':' then
              match parseVal f r₂ with
              | some (v, r₃) =>
                match skipWs r₃ with
                | [] => none
                | c₂ :: r₄ =>
                  if c₂ = ',' then
                    match parseEntries f r₄ with
                    | some (kvs, r₅) => some (.cons ⟨k⟩ v kvs, r₅)
                    | none => none
                  else if c₂ = '}' then some (.cons ⟨k⟩ v .nil, r₄)
                  else none
              | none => none
            else none
        | none => none
      else none

end

/-- `json.loads`: parse a whole document, requiring that only
whitespace remains. -/
def json_loads (s : String) : Option Json :=
  match parseVal (2 * s.data.length + 2) s.data with
  | some (j, rest) => if skipWs rest = [] then some j else none
  | none => none

mutual

/-- Fuel needed by `parseVal` to parse a serialized value. -/
def sizeJ : Json → Nat
  | .arr xs => 1 + sizeL xs
  | .obj kvs => 1 + sizeK kvs
  | _ => 1

/-- Fuel needed by `parseItems`. -/
def sizeL : JsonList → Nat
  | .nil => 1
  | .cons x tl => 1 + sizeJ x + sizeL tl

/-- Fuel needed by `parseEntries`. -/
def sizeK : JsonKVs → Nat
  | .nil => 1
  | .cons _ v tl => 1 + sizeJ v + sizeK tl

end

/-! ## Round-trip lemmas: numbers -/

lemma digitToChar_isDigit {d : Nat} (h : d < 10) : (digitToChar d).isDigit = true := by
  interval_cases d <;> decide

lemma digitToChar_toNat {d : Nat} (h : d < 10) : (digitToChar d).toNat - 48 = d := by
  interval_cases d <;> decide

lemma natToChars_isDigit (m : Nat) : ∀ c ∈ natToChars m, c.isDigit = true := by
  intro c hc
  unfold natToChars at hc
  split at hc
  · simp only [List.mem_singleton] at hc
    subst hc; decide
  · simp only [List.mem_reverse, List.mem_map] at hc
    obtain ⟨d, hd, rfl⟩ := hc
    exact digitToChar_isDigit (Nat.digits_lt_base (by norm_num) hd)

lemma natToChars_ne_nil (m : Nat) : natToChars m ≠ [] := by
  unfold natToChars
  split
  · simp
  · rename_i h
    simp only [ne_eq, List.reverse_eq_nil_iff, List.map_eq_nil_iff]
    exact Nat.digits_ne_nil_iff_ne_zero.mpr h

lemma foldr_digitToChar (l : List Nat) (h : ∀ d ∈ l, d < 10) :
    (l.map digitToChar).foldr (fun c a => 10 * a + (c.toNat - 48)) 0 = Nat.ofDigits 10 l := by
  induction l with
  | nil => simp [Nat.ofDigits]
  | cons d l ih =>
    have htl : ∀ e ∈ l, e < 10 := fun e he => h e (List.mem_cons_of_mem _ he)
    simp only [List.map_cons, List.foldr_cons, Nat.ofDigits_cons]
    rw [ih htl, digitToChar_toNat (h d (List.mem_cons_self _ _))]
    ring

lemma charsToNat_natToChars (m : Nat) : charsToNat (natToChars m) = m := by
  unfold natToChars charsToNat
  split
  · rename_i h; subst h; decide
  · rw [List.foldl_reverse, foldr_digitToChar _ (fun d hd => Nat.digits_lt_base (by norm_num) hd)]
    exact Nat.ofDigits_digits 10 m

lemma takeWhile_append_all {p : Char → Bool} :
    ∀ (l r : List Char), (∀ c ∈ l, p c = true) →
      (∀ c cs, r = c :: cs → p c = false) → (l ++ r).takeWhile p = l := by
  intro l r hl hr
  induction l with
  | nil =>
    cases r with
    | nil => rfl
    | cons c cs => simp [List.takeWhile, hr c cs rfl]
  | cons c l ih =>
    simp [List.takeWhile_cons, hl c (List.mem_cons_self _ _),
      ih (fun x hx => hl x (List.mem_cons_of_mem _ hx))]

lemma dropWhile_append_all {p : Char → Bool} :
    ∀ (l r : List Char), (∀ c ∈ l, p c = true) →
      (∀ c cs, r = c :: cs → p c = false) → (l ++ r).dropWhile p = r := by
  intro l r hl hr
  induction l with
  | nil =>
    cases r with
    | nil => rfl
    | cons c cs => simp [List.dropWhile, hr c cs rfl]
  | cons c l ih =>
    simp [List.dropWhile_cons, hl c (List.mem_cons_self _ _),
      ih (fun x hx => hl x (List.mem_cons_of_mem _ hx))]

lemma parseNat_natToChars (m : Nat) (r : List Char)
    (hr : ∀ c cs, r = c :: cs → c.isDigit = false) :
    parseNat (natToChars m ++ r) = some (m, r) := by
  unfold parseNat
  rw [List.span_eq_take_drop,
    takeWhile_append_all _ _ (natToChars_isDigit m) hr,
    dropWhile_append_all _ _ (natToChars_isDigit m) hr]
  simp only [List.isEmpty_iff]
  rw [if_neg (natToChars_ne_nil m)]
  rw [charsToNat_natToChars]

/-! ## Round-trip lemmas: strings -/

lemma lowHexChar_isHex {d : Nat} (h : d < 16) : isHexDigitChar (lowHexChar d) = true := by
  interval_cases d <;> decide

lemma hexVal_lowHexChar {d : Nat} (h : d < 16) : hexVal (lowHexChar d) = d := by
  interval_cases d <;> decide

lemma parseStrBody_quote (f : Nat) (r : List Char) :
    parseStrBody (f + 1) ('"' :: r) = some ([], r) := rfl

lemma parseStrBody_esc_quote (f : Nat) (r : List Char) :
    parseStrBody (f + 1) ('\\' :: '"' :: r) =
      (fun p => ('"' :: p.1, p.2)) <$> parseStrBody f r := rfl

lemma parseStrBody_esc_bs (f : Nat) (r : List Char) :
    parseStrBody (f + 1) ('\\' :: '\\' :: r) =
      (fun p => ('\\' :: p.1, p.2)) <$> parseStrBody f r := rfl

lemma parseStrBody_esc_n (f : Nat) (r : List Char) :
    parseStrBody (f + 1) ('\\' :: 'n' :: r) =
      (fun p => ('\n' :: p.1, p.2)) <$> parseStrBody f r := rfl

lemma parseStrBody_esc_t (f : Nat) (r : List Char) :
    parseStrBody (f + 1) ('\\' :: 't' :: r) =
      (fun p => ('\t' :: p.1, p.2)) <$> parseStrBody f r := rfl

lemma parseStrBody_esc_r (f : Nat) (r : List Char) :
    parseStrBody (f + 1) ('\\' :: 'r' :: r) =
      (fun p => ('\r' :: p.1, p.2)) <$> parseStrBody f r := rfl

lemma parseStrBody_esc_b (f : Nat) (r : List Char) :
    parseStrBody (f + 1) ('\\' :: 'b' :: r) =
      (fun p => (Char.ofNat 8 :: p.1, p.2)) <$> parseStrBody f r := rfl

lemma parseStrBody_esc_f (f : Nat) (r : List Char) :
    parseStrBody (f + 1) ('\\' :: 'f' :: r) =
      (fun p => (Char.ofNat 12 :: p.1, p.2)) <$> parseStrBody f r := rfl

lemma parseStrBody_escStep (f : Nat) (r : List Char) :
    parseStrBody (f + 1) ('\\' :: r) =
      match parseStrEsc r with
      | some (e, r') => (fun p => (e :: p.1, p.2)) <$> parseStrBody f r'
      | none => none := by
  rw [parseStrBody, if_neg (by decide), if_pos rfl]

lemma parseStrBody_esc_u (f : Nat) (h1 h2 h3 h4 : Char) (r : List Char)
    (hh : (isHexDigitChar h1 && isHexDigitChar h2 && isHexDigitChar h3 && isHexDigitChar h4)
      = true) :
    parseStrBody (f + 1) ('\\' :: 'u' :: h1 :: h2 :: h3 :: h4 :: r) =
      (fun p =>
          (Char.ofNat (4096 * hexVal h1 + 256 * hexVal h2 + 16 * hexVal h3 + hexVal h4)
            :: p.1, p.2)) <$> parseStrBody f r := by
  have he0 : parseStrEsc ('u' :: h1 :: h2 :: h3 :: h4 :: r) =
      if isHexDigitChar h1 && isHexDigitChar h2 && isHexDigitChar h3 && isHexDigitChar h4 then
        some (Char.ofNat (4096 * hexVal h1 + 256 * hexVal h2 + 16 * hexVal h3 + hexVal h4), r)
      else none := rfl
  rw [parseStrBody_escStep, he0, if_pos hh]

set_option maxHeartbeats 2000000 in
lemma parseStrBody_plain (f : Nat) (c : Char) (r : List Char) (hq : c ≠ '"') (hb : c ≠ '\\')
    (hc : ¬ c.toNat < 32) :
    parseStrBody (f + 1) (c :: r) = (fun p => (c :: p.1, p.2)) <$> parseStrBody f r := by
  rw [parseStrBody, if_neg hq, if_neg hb, if_neg hc]

lemma parseStrBody_esc : ∀ (l : List Char) (f : Nat) (r : List Char), l.length < f →
    parseStrBody f (escChars l ++ ('"' :: r)) = some (l, r) := by
  intro l
  induction l with
  | nil =>
    intro f r hf
    cases f with
    | zero => exact (Nat.not_lt_zero _ hf).elim
    | succ f => rfl
  | cons c cs ih =>
    intro f r hf
    cases f with
    | zero => exact (Nat.not_lt_zero _ hf).elim
    | succ f =>
      have hf' : cs.length < f := by simpa using hf
      show parseStrBody (f + 1) ((escChar c ++ escChars cs) ++ ('"' :: r)) = _
      rw [List.append_assoc]
      by_cases h1 : c = '\\'
      · subst h1
        rw [show escChar '\\' = ['\\', '\\'] from rfl]
        simp only [List.cons_append, List.nil_append, parseStrBody_esc_bs, ih _ _ hf']
        rfl
      by_cases h2 : c = '"'
      · subst h2
        rw [show escChar '"' = ['\\', '"'] from rfl]
        simp only [List.cons_append, List.nil_append, parseStrBody_esc_quote, ih _ _ hf']
        rfl
      by_cases h3 : c = '\n'
      · subst h3
        rw [show escChar '\n' = ['\\', 'n'] from rfl]
        simp only [List.cons_append, List.nil_append, parseStrBody_esc_n, ih _ _ hf']
        rfl
      by_cases h4 : c = '\t'
      · subst h4
        rw [show escChar '\t' = ['\\', 't'] from rfl]
        simp only [List.cons_append, List.nil_append, parseStrBody_esc_t, ih _ _ hf']
        rfl
      by_cases h5 : c = '\r'
      · subst h5
        rw [show escChar '\r' = ['\\', 'r'] from rfl]
        simp only [List.cons_append, List.nil_append, parseStrBody_esc_r, ih _ _ hf']
        rfl
      by_cases h6 : c.toNat = 8
      · have hc : Char.ofNat 8 = c := by rw [← h6, Char.ofNat_toNat]
        have he : escChar c = ['\\', 'b'] := by
          simp [escChar, h1, h2, h3, h4, h5, h6]
        rw [he]
        simp only [List.cons_append, List.nil_append, parseStrBody_esc_b, ih _ _ hf', hc]
        rfl
      by_cases h7 : c.toNat = 12
      · have hc : Char.ofNat 12 = c := by rw [← h7, Char.ofNat_toNat]
        have he : escChar c = ['\\', 'f'] := by
          simp [escChar, h1, h2, h3, h4, h5, h6, h7]
        rw [he]
        simp only [List.cons_append, List.nil_append, parseStrBody_esc_f, ih _ _ hf', hc]
        rfl
      by_cases h8 : c.toNat < 32
      · have hhi : c.toNat / 16 < 16 := by omega
        have hlo : c.toNat % 16 < 16 := Nat.mod_lt _ (by norm_num)
        have he : escChar c =
            '\\' :: 'u' :: '0' :: '0' :: lowHexChar (c.toNat / 16) ::
              [lowHexChar (c.toNat % 16)] := by
          simp [escChar, h1, h2, h3, h4, h5, h6, h7, h8]
        rw [he]
        simp only [List.cons_append, List.nil_append]
        rw [parseStrBody_esc_u f _ _ _ _ _ (by
          simp only [lowHexChar_isHex hhi, lowHexChar_isHex hlo,
            show isHexDigitChar '0' = true from rfl, Bool.and_self, Bool.and_true])]
        have hval : 4096 * hexVal '0' + 256 * hexVal '0' +
            16 * hexVal (lowHexChar (c.toNat / 16)) + hexVal (lowHexChar (c.toNat % 16)) =
            c.toNat := by
          rw [hexVal_lowHexChar hhi, hexVal_lowHexChar hlo,
            show hexVal '0' = 0 from rfl]
          omega
        rw [hval, Char.ofNat_toNat, ih _ _ hf']
        rfl
      · have he : escChar c = [c] := by
          simp [escChar, h1, h2, h3, h4, h5, h6, h7, h8]
        rw [he]
        simp only [List.cons_append, List.nil_append]
        rw [parseStrBody_plain f c _ h2 h1 h8, ih _ _ hf']
        rfl

/-! ## Size and length bounds -/

lemma escChar_length_pos (c : Char) : 1 ≤ (escChar c).length := by
  unfold escChar
  repeat' split
  all_goals simp

lemma escChars_length_ge (l : List Char) : l.length ≤ (escChars l).length := by
  induction l with
  | nil => simp [escChars]
  | cons c cs ih =>
    have := escChar_length_pos c
    simp only [escChars, List.length_append, List.length_cons]
    omega

lemma intToChars_length_pos (n : Int) : 1 ≤ (intToChars n).length := by
  unfold intToChars
  split
  · simp
  · exact List.length_pos.mpr (natToChars_ne_nil _)

mutual

theorem sizeJ_le (j : Json) : sizeJ j ≤ 2 * (dumpsChars j).length := by
  cases j with
  | null => simp [sizeJ, dumpsChars]
  | bool b => cases b <;> simp [sizeJ, dumpsChars]
  | int n =>
    have h := intToChars_length_pos n
    simp only [sizeJ, dumpsChars]
    omega
  | str s =>
    simp [sizeJ, dumpsChars]
    omega
  | arr xs =>
    have h := sizeL_le xs
    simp only [sizeJ, dumpsChars, List.length_cons, List.length_append, List.length_singleton]
    omega
  | obj kvs =>
    have h := sizeK_le kvs
    simp only [sizeJ, dumpsChars, List.length_cons, List.length_append, List.length_singleton]
    omega

theorem sizeL_le (xs : JsonList) : sizeL xs ≤ 2 * (dumpsList xs).length + 2 := by
  cases xs with
  | nil => simp [sizeL, dumpsList]
  | cons x tl =>
    have hx := sizeJ_le x
    cases tl with
    | nil =>
      simp only [sizeL, dumpsList]
      omega
    | cons y tl' =>
      have ht := sizeL_le (.cons y tl')
      simp only [sizeL, dumpsList, List.length_append, List.length_cons] at *
      omega

theorem sizeK_le (kvs : JsonKVs) : sizeK kvs ≤ 2 * (dumpsKVs kvs).length + 2 := by
  cases kvs with
  | nil => simp [sizeK, dumpsKVs]
  | cons k v tl =>
    have hv := sizeJ_le v
    cases tl with
    | nil =>
      simp only [sizeK, dumpsKVs, List.length_append, List.length_cons]
      omega
    | cons k' v' tl' =>
      have ht := sizeK_le (.cons k' v' tl')
      simp only [sizeK, dumpsKVs, List.length_append, List.length_cons] at *
      omega

end

/-! ## Parser step lemmas -/

lemma skipWs_cons {c : Char} (r : List Char) (h : isWs c = false) : skipWs (c :: r) = c :: r := by
  simp [skipWs, List.dropWhile_cons, h]

lemma skipWs_ws {c : Char} (r : List Char) (h : isWs c = true) : skipWs (c :: r) = skipWs r := by
  simp [skipWs, List.dropWhile_cons, h]

/-- The input does not begin with a decimal digit (so a parsed number
cannot run on into it). -/
def noDigitHead (r : List Char) : Prop := ∀ c cs, r = c :: cs → c.isDigit = false

lemma noDigitHead_nil : noDigitHead [] := fun c cs h => by cases h

lemma noDigitHead_cons {c : Char} (r : List Char) (h : c.isDigit = false) :
    noDigitHead (c :: r) := by
  intro c' cs' h'
  cases h'
  exact h

lemma isWs_of_isDigit {c : Char} (h : c.isDigit = true) : isWs c = false := by
  have h1 : c ≠ ' ' := by rintro rfl; exact absurd h (by decide)
  have h2 : c ≠ '\n' := by rintro rfl; exact absurd h (by decide)
  have h3 : c ≠ '\t' := by rintro rfl; exact absurd h (by decide)
  have h4 : c ≠ '\r' := by rintro rfl; exact absurd h (by decide)
  simp [isWs, h1, h2, h3, h4]

lemma isDigit_ne_heads {c : Char} (h : c.isDigit = true) :
    ∀ x ∈ ['n', 't', 'f', '"', '[', '{', '-'], c ≠ x := by
  intro x hx
  fin_cases hx <;> (rintro rfl; exact absurd h (by decide))

lemma parseVal_cons (f : Nat) (c : Char) (r : List Char) (hw : isWs c = false) :
    parseVal (f + 1) (c :: r) =
      (if c = 'n' then parseLitNull r
       else if c = 't' then parseLitTrue r
       else if c = 'f' then parseLitFalse r
       else if c = '"' then
         match parseStrBody (r.length + 1) r with
         | some (cs, r') => some (.str ⟨cs⟩, r')
         | none => none
       else if c = '[' then
         match parseItems f r with
         | some (xs, r') => some (.arr xs, r')
         | none => none
       else if c = '{' then
         match parseEntries f r with
         | some (kvs, r') => some (.obj kvs, r')
         | none => none
       else if c = '-' then
         match parseNat r with
         | some (m, r') => some (.int (-(m : Int)), r')
         | none => none
       else if c.isDigit then
         match parseNat (c :: r) with
         | some (m, r') => some (.int (m : Int), r')
         | none => none
       else none) := by
  rw [parseVal, skipWs_cons r hw]

lemma parseItems_cons (f : Nat) (c : Char) (r : List Char) (hw : isWs c = false) :
    parseItems (f + 1) (c :: r) =
      (if c = ']' then some (.nil, r)
       else
         match parseVal f (c :: r) with
         | some (x, r₁) =>
           match skipWs r₁ with
           | [] => none
           | c' :: r₂ =>
             if c' = ',' then
               match parseItems f r₂ with
               | some (xs, r₃) => some (.cons x xs, r₃)
               | none => none
             else if c' = ']' then some (.cons x .nil, r₂)
             else none
         | none => none) := by
  rw [parseItems, skipWs_cons r hw]

lemma parseEntries_cons (f : Nat) (c : Char) (r : List Char) (hw : isWs c = false) :
    parseEntries (f + 1) (c :: r) =
      (if c = '}' then some (.nil, r)
       else if c = '"' then
         match parseStrBody (r.length + 1) r with
         | some (k, r₁) =>
           match skipWs r₁ with
           | [] => none
           | c₁ :: r₂ =>
             if c₁ = ':' then
               match parseVal f r₂ with
               | some (v, r₃) =>
                 match skipWs r₃ with
                 | [] => none
                 | c₂ :: r₄ =>
                   if c₂ = ',' then
                     match parseEntries f r₄ with
                     | some (kvs, r₅) => some (.cons ⟨k⟩ v kvs, r₅)
                     | none => none
                   else if c₂ = '}' then some (.cons ⟨k⟩ v .nil, r₄)
                   else none
               | none => none
             else none
         | none => none
       else none) := by
  rw [parseEntries, skipWs_cons r hw]

lemma parseVal_wsHead (f : Nat) {c : Char} (s : List Char) (h : isWs c = true) :
    parseVal f (c :: s) = parseVal f s := by
  cases f with
  | zero => rfl
  | succ f =>
    simp only [parseVal]
    rw [skipWs_ws s h]

lemma parseItems_wsHead (f : Nat) {c : Char} (s : List Char) (h : isWs c = true) :
    parseItems f (c :: s) = parseItems f s := by
  cases f with
  | zero => rfl
  | succ f =>
    simp only [parseItems]
    rw [skipWs_ws s h]

lemma parseEntries_wsHead (f : Nat) {c : Char} (s : List Char) (h : isWs c = true) :
    parseEntries f (c :: s) = parseEntries f s := by
  cases f with
  | zero => rfl
  | succ f =>
    simp only [parseEntries]
    rw [skipWs_ws s h]

/-- A serialized value's first character is significant: not
whitespace and not a closing bracket. -/
@[reducible] def goodHead (c : Char) : Prop := isWs c = false ∧ c ≠ ']'

lemma dumpsChars_head (j : Json) : ∃ c cs, dumpsChars j = c :: cs ∧ goodHead c := by
  cases j with
  | null =>
    refine ⟨'n', _, rfl, ?_⟩
    constructor <;> decide
  | bool b =>
    cases b
    · exact ⟨'f', _, rfl, by constructor <;> decide⟩
    · exact ⟨'t', _, rfl, by constructor <;> decide⟩
  | int n =>
    show ∃ c cs, intToChars n = c :: cs ∧ _
    unfold intToChars
    split
    · exact ⟨'-', _, rfl, by constructor <;> decide⟩
    · obtain ⟨c, cs, hc⟩ := List.exists_cons_of_ne_nil (natToChars_ne_nil n.natAbs)
      have hd : c.isDigit = true :=
        natToChars_isDigit _ c (hc ▸ List.mem_cons_self _ _)
      refine ⟨c, cs, hc, isWs_of_isDigit hd, ?_⟩
      rintro rfl
      exact absurd hd (by decide)
  | str s => exact ⟨'"', _, rfl, by constructor <;> decide⟩
  | arr xs => exact ⟨'[', _, rfl, by constructor <;> decide⟩
  | obj kvs => exact ⟨'{', _, rfl, by constructor <;> decide⟩

lemma sizeJ_pos (j : Json) : 1 ≤ sizeJ j := by
  cases j <;> simp [sizeJ]

lemma sizeL_pos (xs : JsonList) : 1 ≤ sizeL xs := by
  cases xs
  · simp [sizeL]
  · simp [sizeL]
    omega

lemma sizeK_pos (kvs : JsonKVs) : 1 ≤ sizeK kvs := by
  cases kvs
  · simp [sizeK]
  · simp [sizeK]
    omega

/-- The serializer/parser round trip, by induction on the parser fuel. -/
theorem parse_dumps_aux : ∀ fuel : Nat,
    (∀ (j : Json) (rest : List Char), sizeJ j ≤ fuel → noDigitHead rest →
      parseVal fuel (dumpsChars j ++ rest) = some (j, rest)) ∧
    (∀ (xs : JsonList) (rest : List Char), sizeL xs ≤ fuel →
      parseItems fuel (dumpsList xs ++ (']' :: rest)) = some (xs, rest)) ∧
    (∀ (kvs : JsonKVs) (rest : List Char), sizeK kvs ≤ fuel →
      parseEntries fuel (dumpsKVs kvs ++ ('}' :: rest)) = some (kvs, rest)) := by
  intro fuel
  induction fuel with
  | zero =>
    refine ⟨fun j rest h _ => absurd h ?_, fun xs rest h => absurd h ?_,
      fun kvs rest h => absurd h ?_⟩
    · have := sizeJ_pos j; omega
    · have := sizeL_pos xs; omega
    · have := sizeK_pos kvs; omega
  | succ f ih =>
    obtain ⟨ihV, ihL, ihK⟩ := ih
    refine ⟨?_, ?_, ?_⟩
    · -- values
      intro j rest hsz hnd
      cases j with
      | null => rfl
      | bool b => cases b <;> rfl
      | int n =>
        show parseVal (f + 1) (intToChars n ++ rest) = _
        unfold intToChars
        split
        · rename_i hneg
          rw [List.cons_append, parseVal_cons f '-' _ (by decide), if_neg (by decide),
            if_neg (by decide), if_neg (by decide), if_neg (by decide), if_neg (by decide),
            if_neg (by decide), if_pos rfl, parseNat_natToChars _ rest hnd]
          show some (Json.int (-(n.natAbs : Int)), rest) = some (Json.int n, rest)
          have hval : (-(n.natAbs : Int)) = n := by omega
          rw [hval]
        · rename_i hpos
          obtain ⟨c, cs, hc⟩ := List.exists_cons_of_ne_nil (natToChars_ne_nil n.natAbs)
          have hd : c.isDigit = true := natToChars_isDigit _ c (hc ▸ List.mem_cons_self _ _)
          have hne := isDigit_ne_heads hd
          rw [hc, List.cons_append, parseVal_cons f c _ (isWs_of_isDigit hd),
            if_neg (hne 'n' (by decide)), if_neg (hne 't' (by decide)),
            if_neg (hne 'f' (by decide)), if_neg (hne '"' (by decide)),
            if_neg (hne '[' (by decide)), if_neg (hne '{' (by decide)),
            if_neg (hne '-' (by decide)), if_pos hd,
            ← List.cons_append, ← hc, parseNat_natToChars _ rest hnd]
          show some (Json.int ((n.natAbs : Int)), rest) = some (Json.int n, rest)
          have hval : ((n.natAbs : Int)) = n := by omega
          rw [hval]
      | str s =>
        show parseVal (f + 1) (('"' :: (escChars s.data ++ ['"'])) ++ rest) = _
        rw [List.cons_append, parseVal_cons f '"' _ (by decide), if_neg (by decide),
          if_neg (by decide), if_neg (by decide), if_pos rfl, List.append_assoc,
          List.singleton_append]
        have hb : s.data.length < (escChars s.data ++ ('"' :: rest)).length + 1 := by
          have := escChars_length_ge s.data
          simp only [List.length_append, List.length_cons]
          omega
        rw [parseStrBody_esc s.data _ rest hb]
      | arr xs =>
        show parseVal (f + 1) (('[' :: (dumpsList xs ++ [']'])) ++ rest) = _
        rw [List.cons_append, parseVal_cons f '[' _ (by decide), if_neg (by decide),
          if_neg (by decide), if_neg (by decide), if_neg (by decide), if_pos rfl,
          List.append_assoc, List.singleton_append]
        have hsz' : sizeL xs ≤ f := by
          simp only [sizeJ] at hsz
          omega
        rw [ihL xs rest hsz']
      | obj kvs =>
        show parseVal (f + 1) (('{' :: (dumpsKVs kvs ++ ['}'])) ++ rest) = _
        rw [List.cons_append, parseVal_cons f '{' _ (by decide), if_neg (by decide),
          if_neg (by decide), if_neg (by decide), if_neg (by decide), if_neg (by decide),
          if_pos rfl, List.append_assoc, List.singleton_append]
        have hsz' : sizeK kvs ≤ f := by
          simp only [sizeJ] at hsz
          omega
        rw [ihK kvs rest hsz']
    · -- array items
      intro xs rest hsz
      cases xs with
      | nil => rfl
      | cons x tl =>
        obtain ⟨c, cs, hc, hw, hne⟩ := dumpsChars_head x
        cases tl with
        | nil =>
          show parseItems (f + 1) (dumpsChars x ++ (']' :: rest)) = _
          rw [hc, List.cons_append, parseItems_cons f c _ hw, if_neg hne,
            ← List.cons_append, ← hc]
          have hszx : sizeJ x ≤ f := by
            simp only [sizeL] at hsz
            have := sizeL_pos JsonList.nil
            omega
          rw [ihV x (']' :: rest) hszx (noDigitHead_cons _ (by decide))]
          rfl
        | cons y tl' =>
          show parseItems (f + 1)
              ((dumpsChars x ++ (',' :: ' ' :: dumpsList (.cons y tl'))) ++ (']' :: rest)) = _
          have hszx : sizeJ x ≤ f := by
            simp only [sizeL] at hsz
            omega
          have hszt : sizeL (.cons y tl') ≤ f := by
            simp only [sizeL] at hsz ⊢
            omega
          rw [List.append_assoc, List.cons_append, List.cons_append, hc, List.cons_append,
            parseItems_cons f c _ hw, if_neg hne, ← List.cons_append, ← hc]
          rw [ihV x _ hszx (noDigitHead_cons _ (by decide))]
          show (match parseItems f (' ' :: (dumpsList (.cons y tl') ++ (']' :: rest))) with
            | some (zs, r₃) => some (JsonList.cons x zs, r₃)
            | none => none) = _
          rw [parseItems_wsHead f _ (by decide), ihL _ rest hszt]
    · -- object entries
      intro kvs rest hsz
      cases kvs with
      | nil => rfl
      | cons k v tl =>
        have hszv : sizeJ v ≤ f := by
          simp only [sizeK] at hsz
          have := sizeK_pos tl
          omega
        cases tl with
        | nil =>
          show parseEntries (f + 1)
              (('"' :: (escChars k.data ++ ('"' :: ':' :: ' ' :: dumpsChars v))) ++
                ('}' :: rest)) = _
          simp only [List.cons_append, List.append_assoc]
          rw [parseEntries_cons f '"' _ (by decide), if_neg (by decide), if_pos rfl]
          have hkb : k.data.length <
              (escChars k.data ++ ('"' :: ':' :: ' ' :: (dumpsChars v ++ ('}' :: rest)))).length
                + 1 := by
            have := escChars_length_ge k.data
            simp only [List.length_append, List.length_cons]
            omega
          rw [parseStrBody_esc k.data _ _ hkb]
          show (match parseVal f (' ' :: (dumpsChars v ++ ('}' :: rest))) with
            | some (w, r₃) =>
              match skipWs r₃ with
              | [] => none
              | c₂ :: r₄ =>
                if c₂ = ',' then
                  match parseEntries f r₄ with
                  | some (zs, r₅) => some (JsonKVs.cons ⟨k.data⟩ w zs, r₅)
                  | none => none
                else if c₂ = '}' then some (JsonKVs.cons ⟨k.data⟩ w .nil, r₄)
                else none
            | none => none) = _
          rw [parseVal_wsHead f _ (by decide),
            ihV v _ hszv (noDigitHead_cons _ (by decide))]
          rfl
        | cons k' v' tl' =>
          have hszt : sizeK (.cons k' v' tl') ≤ f := by
            simp only [sizeK] at hsz ⊢
            omega
          show parseEntries (f + 1)
              ((('"' :: (escChars k.data ++ ('"' :: ':' :: ' ' :: dumpsChars v))) ++
                (',' :: ' ' :: dumpsKVs (.cons k' v' tl'))) ++ ('}' :: rest)) = _
          simp only [List.cons_append, List.append_assoc]
          rw [parseEntries_cons f '"' _ (by decide), if_neg (by decide), if_pos rfl]
          have hkb : k.data.length <
              (escChars k.data ++ ('"' :: ':' :: ' ' :: (dumpsChars v ++
                (',' :: ' ' :: (dumpsKVs (.cons k' v' tl') ++ ('}' :: rest)))))).length + 1 := by
            have := escChars_length_ge k.data
            simp only [List.length_append, List.length_cons]
            omega
          rw [parseStrBody_esc k.data _ _ hkb]
          show (match parseVal f (' ' :: (dumpsChars v ++
              (',' :: ' ' :: (dumpsKVs (.cons k' v' tl') ++ ('}' :: rest))))) with
            | some (w, r₃) =>
              match skipWs r₃ with
              | [] => none
              | c₂ :: r₄ =>
                if c₂ = ',' then
                  match parseEntries f r₄ with
                  | some (zs, r₅) => some (JsonKVs.cons ⟨k.data⟩ w zs, r₅)
                  | none => none
                else if c₂ = '}' then some (JsonKVs.cons ⟨k.data⟩ w .nil, r₄)
                else none
            | none => none) = _
          rw [parseVal_wsHead f _ (by decide),
            ihV v _ hszv (noDigitHead_cons _ (by decide))]
          show (match parseEntries f (' ' :: (dumpsKVs (.cons k' v' tl') ++ ('}' :: rest))) with
            | some (zs, r₅) => some (JsonKVs.cons ⟨k.data⟩ v zs, r₅)
            | none => none) = _
          rw [parseEntries_wsHead f _ (by decide), ihK _ rest hszt]

/-- Serializing any JSON value with `json.dumps` and parsing the result
back with `json.loads` recovers the value exactly. -/
theorem json_loads_dumps (j : Json) : json_loads (json_dumps j) = some j := by
  unfold json_loads json_dumps
  have hsz : sizeJ j ≤ 2 * (dumpsChars j).length + 2 := by
    have := sizeJ_le j
    omega
  have h := (parse_dumps_aux (2 * (dumpsChars j).length + 2)).1 j [] hsz noDigitHead_nil
  rw [List.append_nil] at h
  show (match parseVal (2 * (dumpsChars j).length + 2) (dumpsChars j) with
    | some (v, rest) => if skipWs rest = [] then some v else none
    | none => none) = some j
  rw [h]
  rfl

/-! ## `async_web.py`: signature inspection

Python function signatures are modelled as ordered lists of parameters,
mirroring `inspect.signature(func).parameters`. -/

/-- `inspect.Parameter.kind`. -/
inductive ParamKind where
  | positionalOnly
  | positionalOrKeyword
  | varPositional
  | keywordOnly
  | varKeyword
deriving DecidableEq

/-- One signature parameter: its name, kind, and whether it has a
default value (`param.default != inspect.Parameter.empty`). -/
structure Param where
  name : String
  kind : ParamKind
  hasDefault : Bool
deriving DecidableEq

/-- `get_required_kwargs`: names of keyword-only parameters without a
default, in signature order. -/
def get_required_kwargs (sig : List Param) : List String :=
  (sig.filter (fun p => p.kind = ParamKind.keywordOnly && !p.hasDefault)).map Param.name

/-- `get_named_kwargs`: names of all keyword-only parameters, in
signature order. -/
def get_named_kwargs (sig : List Param) : List String :=
  (sig.filter (fun p => p.kind = ParamKind.keywordOnly)).map Param.name

/-- `has_named_kwargs`. -/
def has_named_kwargs (sig : List Param) : Bool :=
  sig.any (fun p => p.kind = ParamKind.keywordOnly)

/-- `has_var_kwarg`. -/
def has_var_kwarg (sig : List Param) : Bool :=
  sig.any (fun p => p.kind = ParamKind.varKeyword)

/-- The loop body of `has_request_arg`, carrying the `found` flag
(the `%s%s`-formatted function name and signature are dropped from the
error message). -/
def has_request_arg_go (found : Bool) : List Param → Except String Bool
  | [] => .ok found
  | p :: rest =>
    if p.name = "request" then has_request_arg_go true rest
    else if found &&
        !(p.kind = ParamKind.varPositional || p.kind = ParamKind.keywordOnly ||
          p.kind = ParamKind.varKeyword) then
      .error "request parameter must be the last named parameter in function"
    else has_request_arg_go found rest

/-- `has_request_arg`: `true` when a parameter is named `request`;
raises when a positional parameter follows it. -/
def has_request_arg (sig : List Param) : Except String Bool :=
  has_request_arg_go false sig

/-- The per-handler data cached by `RequestHandler.__init__`. -/
structure RequestHandler where
  _has_request_arg : Bool
  _has_var_kwarg : Bool
  _has_named_kwargs : Bool
  _named_kwargs : List String
  _required_kwargs : List String
deriving DecidableEq

/-- `RequestHandler.__init__`: signature inspection at registration
time; fails when `has_request_arg` raises. -/
def RequestHandler.init (sig : List Param) : Except String RequestHandler :=
  match has_request_arg sig with
  | .error e => .error e
  | .ok hra =>
    .ok { _has_request_arg := hra
          _has_var_kwarg := has_var_kwarg sig
          _has_named_kwargs := has_named_kwargs sig
          _named_kwargs := get_named_kwargs sig
          _required_kwargs := get_required_kwargs sig }

/-! ## `async_web.py`: the per-request argument binder -/

/-- HTTP method (the framework registers only GET and POST). -/
inductive Method where
  | get
  | post
deriving DecidableEq

/-- A value stored in the call-argument mapping: a string (path, query
or form value), a JSON value (from a JSON body), or the injected raw
request object. -/
inductive Val where
  | str (s : String)
  | json (j : Json)
  | request
deriving DecidableEq

/-- One incoming request, carrying the results of the transport-level
parsers the code calls into (`request.json()`, `request.post()`,
`urllib.parse.parse_qs` first values, `request.match_info`).
`content_type` is `""` when the header is missing (`not
request.content_type`). -/
structure Request where
  method : Method
  content_type : String
  json_body : Json
  post_body : List (String × String)
  query_string : String
  query_params : List (String × String)
  match_info : List (String × String)

/-- Python-dict lookup on an insertion-ordered association list. -/
def dictGet (d : List (String × Val)) (k : String) : Option Val :=
  match d with
  | [] => none
  | (k', v) :: rest => if k' = k then some v else dictGet rest k

/-- `k in d`. -/
def dictHas (d : List (String × Val)) (k : String) : Bool :=
  (dictGet d k).isSome

/-- `d[k] = v`: update in place when the key exists, append otherwise
(Python dict insertion-order semantics). -/
def dictInsert (d : List (String × Val)) (k : String) (v : Val) : List (String × Val) :=
  match d with
  | [] => [(k, v)]
  | (k', v') :: rest => if k' = k then (k, v) :: rest else (k', v') :: dictInsert rest k v

/-- A parsed JSON object body as a call-argument mapping. -/
def jsonKwOf : JsonKVs → List (String × Val)
  | .nil => []
  | .cons k v tl => (k, Val.json v) :: jsonKwOf tl

/-- Content negotiation (`RequestHandler.__call__`, lines 116–136):
returns `none` when no body/query mapping was produced, the mapping
when one was, or the Bad-Request text on failure. -/
def parseBody (h : RequestHandler) (req : Request) :
    Except String (Option (List (String × Val))) :=
  if h._has_var_kwarg || h._has_named_kwargs || !h._required_kwargs.isEmpty then
    match req.method with
    | .post =>
      if req.content_type = "" then .error "Missing Content-Type."
      else
        let ct := req.content_type.toLower
        if ct.startsWith "application/json" then
          match req.json_body with
          | .obj kvs => .ok (some (jsonKwOf kvs))
          | _ => .error "JSON body must be object."
        else if ct.startsWith "application/x-www-form-urlencoded" ||
            ct.startsWith "multipart/form-data" then
          .ok (some (req.post_body.map (fun p => (p.1, Val.str p.2))))
        else .error ("Unsupported Content-Type: " ++ req.content_type)
    | .get =>
      if req.query_string ≠ "" then
        .ok (some (req.query_params.map (fun p => (p.1, Val.str p.2))))
      else .ok none
  else .ok none

/-- The filtering step (lines 140–145): keep only the declared
keyword-only parameter names, in declaration order. -/
def filterNamed (named : List String) (kw : List (String × Val)) : List (String × Val) :=
  named.filterMap (fun n => (dictGet kw n).map (fun v => (n, v)))

/-- Overlaying the matched path parameters (lines 146–149): each is
written into the mapping, and a warning is recorded first whenever the
key was already present. -/
def overlayPath (mi : List (String × String)) (acc : List (String × Val) × List String) :
    List (String × Val) × List String :=
  mi.foldl
    (fun acc p =>
      (dictInsert acc.1 p.1 (Val.str p.2),
       if dictHas acc.1 p.1 then acc.2 ++ [p.1] else acc.2))
    acc

/-- The merge step (lines 137–149): when no body/query mapping was
produced the path parameters alone form the mapping; otherwise the
mapping is filtered (unless a `**kwargs` catch-all exists or there are
no named parameters) and the path parameters are overlaid on top. -/
def mergeKw (h : RequestHandler) (req : Request) (kw0 : Option (List (String × Val))) :
    List (String × Val) × List String :=
  match kw0 with
  | none => (req.match_info.map (fun p => (p.1, Val.str p.2)), [])
  | some kw =>
    let kw1 := if !h._has_var_kwarg && !h._named_kwargs.isEmpty then
        filterNamed h._named_kwargs kw
      else kw
    overlayPath req.match_info (kw1, [])

/-- Line 150–151: inject the raw request under the fixed key
`"request"`. -/
def injectRequest (h : RequestHandler) (kw : List (String × Val)) : List (String × Val) :=
  if h._has_request_arg then dictInsert kw "request" Val.request else kw

/-- Lines 152–155: the first required name absent from the mapping, if
any. -/
def checkRequired (h : RequestHandler) (kw : List (String × Val)) : Option String :=
  h._required_kwargs.find? (fun n => !(dictHas kw n))

/-- The full argument-binding phase of `RequestHandler.__call__`:
either the Bad-Request text, or the final call-argument mapping
together with the collision warnings. -/
def bindArgs (h : RequestHandler) (req : Request) :
    Except String (List (String × Val) × List String) :=
  match parseBody h req with
  | .error t => .error t
  | .ok kw0 =>
    let m := mergeKw h req kw0
    let kw := injectRequest h m.1
    match checkRequired h kw with
    | some name => .error ("Missing argument: " ++ name)
    | none => .ok (kw, m.2)

/-! ## `custom_errors.py` and handler invocation -/

/-- `APIError`: a structured application error with an error code,
auxiliary data and a message. -/
structure APIError where
  error : String
  data : String
  msg : String
deriving DecidableEq

/-! ## `async_web.py`: the response coercer (`response_factory`) -/

/-- A wire-level response as built by the coercer (status, content
type, body text, redirect location).  `web.Response` defaults the
status to 200; `web.HTTPFound` is a 302 with a location. -/
structure WResp where
  status : Int
  content_type : Option String
  body : Option String
  location : Option String
deriving DecidableEq

/-- A handler's return value, by the runtime types `response_factory`
dispatches on: a protocol-native response, `bytes`, `str`, `dict`
(with JSON-serializable values), `int`, a two-element `tuple`, or
anything else (carrying its `str()` rendering). -/
inductive PyVal where
  | stream (resp : WResp)
  | bytes (b : String)
  | str (s : String)
  | dict (kvs : JsonKVs)
  | int (n : Int)
  | tuple2 (a b : PyVal)
  | other (repr : String)
deriving DecidableEq

/-- Python `str()` on a handler return value (used by the coercer's
`str(m)` and `str(r)` calls; only the `str` and `int` cases are
exercised by the properties below). -/
def pyStr : PyVal → String
  | .stream _ => "<StreamResponse>"
  | .bytes b => "b" ++ b
  | .str s => s
  | .dict kvs => json_dumps (.obj kvs)
  | .int n => ⟨intToChars n⟩
  | .tuple2 a b => "(" ++ pyStr a ++ ", " ++ pyStr b ++ ")"
  | .other s => s

/-- The shared fallback: `str(r)` as `text/plain`. -/
def plainResp (r : PyVal) : WResp :=
  { status := 200, content_type := some "text/plain;charset=utf-8",
    body := some (pyStr r), location := none }

/-- `response_factory`'s inner `response` middleware: runtime-type
dispatch of the handler result to a wire response.  `render` stands
for the external Jinja2 `get_template(t).render(**r)` call. -/
def response_factory (render : Json → JsonKVs → String) (r : PyVal) : WResp :=
  match r with
  | .stream resp => resp
  | .bytes b =>
    { status := 200, content_type := some "application/octet-stream",
      body := some b, location := none }
  | .str s =>
    if s.startsWith "redirect:" then
      { status := 302, content_type := none, body := none, location := some (s.drop 9) }
    else
      { status := 200, content_type := some "text/html;charset=utf-8",
        body := some s, location := none }
  | .dict kvs =>
    match kvs.get "__template__" with
    | none =>
      { status := 200, content_type := some "application/json;charset=utf-8",
        body := some (json_dumps (.obj kvs)), location := none }
    | some Json.null =>
      { status := 200, content_type := some "application/json;charset=utf-8",
        body := some (json_dumps (.obj kvs)), location := none }
    | some t =>
      { status := 200, content_type := some "text/html;charset=utf-8",
        body := some (render t kvs), location := none }
  | .int n =>
    if 100 ≤ n ∧ n < 600 then
      { status := n, content_type := none, body := none, location := none }
    else plainResp (.int n)
  | .tuple2 t m =>
    match t with
    | .int n =>
      if 100 ≤ n ∧ n < 600 then
        { status := n, content_type := some "text/plain;charset=utf-8",
          body := some (pyStr m), location := none }
      else plainResp (.tuple2 t m)
    | _ => plainResp (.tuple2 t m)
  | .other s => plainResp (.other s)

/-- The mapping `dict(error=e.error, data=e.data, message=e.msg)`
built at the handler-invocation boundary when an `APIError` is
caught. -/
def apiErrorDict (e : APIError) : JsonKVs :=
  .cons "error" (.str e.error) (.cons "data" (.str e.data) (.cons "message" (.str e.msg) .nil))

/-- Outcome of `RequestHandler.__call__`: an `HTTPBadRequest` with its
text, or the value handed to the response middleware together with the
collision warnings that were logged. -/
inductive CallOutcome where
  | badRequest (text : String)
  | result (r : PyVal) (warnings : List String)
deriving DecidableEq

/-- `RequestHandler.__call__`: bind arguments, invoke the handler
(`func`), and convert a raised `APIError` into its mapping. -/
def handlerCall (h : RequestHandler)
    (func : List (String × Val) → Except APIError PyVal) (req : Request) : CallOutcome :=
  match bindArgs h req with
  | .error t => .badRequest t
  | .ok (kw, warns) =>
    match func kw with
    | .ok r => .result r warns
    | .error e => .result (.dict (apiErrorDict e)) warns

/-! ## `orm.py`: `execute`, `select`, and `ModelMetaClass.__new__` -/

/-- Database-side operations issued on a connection, in order. -/
inductive DbOp where
  | beginTx
  | execSql
  | commitTx
  | rollbackTx
deriving DecidableEq

/-- An exception raised by `cur.execute`: either the repository's own
`custom_errors.SqlExecutionError` (defined in `custom_errors.py` but
never raised anywhere in the repository), or a driver-level exception
(the pymysql/aiomysql error types `aiomysql` actually raises, which
are outside the local `DBError` hierarchy). -/
inductive PyExc where
  | sqlExecutionError (msg : String)
  | driverError (msg : String)
deriving DecidableEq

/-- An error escaping `execute`/`select`: the `PoolNotFoundError`
raised locally, or a propagated cursor exception. -/
inductive DbErr where
  | poolNotFound (msg : String)
  | raised (e : PyExc)
deriving DecidableEq

/-- `execute(sql, args, autocommit)`.  `poolExists` models whether
`create_pool` ran (`__pool is not None`); `run` models the outcome of
`cur.execute` (the affected row count, or the exception it raised).
The `except` clause at orm.py line 74 is typed: it catches only
`custom_errors.SqlExecutionError`, so only that exception type
triggers the rollback branch — any other exception propagates with
neither commit nor rollback.  Returns the result together with the
trace of connection operations performed. -/
def execute (poolExists : Bool) (run : Except PyExc Nat) (autocommit : Bool) :
    Except DbErr Nat × List DbOp :=
  if poolExists then
    let ops0 := if autocommit then [] else [DbOp.beginTx]
    match run with
    | .ok affected =>
      (.ok affected, ops0 ++ [DbOp.execSql] ++ (if autocommit then [] else [DbOp.commitTx]))
    | .error (.sqlExecutionError msg) =>
      (.error (.raised (.sqlExecutionError msg)),
        ops0 ++ [DbOp.execSql] ++ (if autocommit then [] else [DbOp.rollbackTx]))
    | .error (.driverError msg) =>
      (.error (.raised (.driverError msg)), ops0 ++ [DbOp.execSql])
  else (.error (.poolNotFound "Connection pool is NoneType."), [])

/-- `select(sql, args, size)`: fetches `size` rows when `size` is
truthy, all rows otherwise; raises `PoolNotFoundError` when the pool
was never created. -/
def select (poolExists : Bool) (rows : List (List (String × Json))) (size : Option Nat) :
    Except DbErr (List (List (String × Json))) :=
  if poolExists then
    match size with
    | some n => if n = 0 then .ok rows else .ok (rows.take n)
    | none => .ok rows
  else .error (.poolNotFound "Connection pool is NoneType.")

/-- A column descriptor (`Field`): its optional column name, DDL
column type, and primary-key mark. -/
structure Field where
  name : Option String
  column_type : String
  primary_key : Bool
deriving DecidableEq

/-- `create_args_str`: `','.join('?' * num)`. -/
def create_args_str (num : Nat) : String :=
  String.intercalate "," (List.replicate num "?")

/-- The schema attributes installed on an entity class by
`ModelMetaClass.__new__`. -/
structure ModelSchema where
  table : String
  mappings : List (String × Field)
  primary_key : String
  fields : List String
  select_sql : String
  insert_sql : String
  update_sql : String
  delete_sql : String
deriving DecidableEq

/-- The definition-time errors of `ModelMetaClass.__new__`. -/
inductive ModelError where
  | duplicatePrimaryKey (msg : String)
  | primaryKeyNotFound (msg : String)
deriving DecidableEq

/-- The field-scanning loop of `ModelMetaClass.__new__`: accumulates
the primary key and the non-primary field names, failing on a second
primary key. -/
def scanFields (table : String) :
    List (String × Field) → Option String → List String →
      Except ModelError (Option String × List String)
  | [], pk, fields => .ok (pk, fields)
  | (k, v) :: rest, pk, fields =>
    if v.primary_key then
      match pk with
      | some _ => .error (.duplicatePrimaryKey ("Table: " ++ table ++ ", field: " ++ k ++ "."))
      | none => scanFields table rest (some k) fields
    else scanFields table rest pk (fields ++ [k])

/-- `'`%s`' % f`. -/
def backquote (f : String) : String := "`" ++ f ++ "`"

/-- `attrs.get('__table__', None) or name`. -/
def tableOf (clsName : String) (tableAttr : Option String) : String :=
  match tableAttr with
  | some t => if t = "" then clsName else t
  | none => clsName

/-- `ModelMetaClass.__new__` for a class that is not `Model` itself:
`attrs` are the class-level `Field` attributes in definition order;
`tableAttr` is `attrs.get('__table__')`.  Fails at definition time
with zero or duplicate primary keys; otherwise installs the four SQL
templates. -/
def modelNew (clsName : String) (tableAttr : Option String) (attrs : List (String × Field)) :
    Except ModelError ModelSchema :=
  let table := tableOf clsName tableAttr
  match scanFields table attrs none [] with
  | .error err => .error err
  | .ok (pk, fields) =>
    match pk with
    | none => .error (.primaryKeyNotFound ("Table: " ++ table ++ "."))
    | some primary_key =>
      let escaped_fields := fields.map backquote
      .ok { table := table
            mappings := attrs
            primary_key := primary_key
            fields := fields
            select_sql := "select " ++ backquote primary_key ++ ", " ++
              String.intercalate ", " escaped_fields ++ " from " ++ backquote table
            insert_sql := "insert into " ++ backquote table ++ " (" ++
              String.intercalate ", " escaped_fields ++ ", " ++ backquote primary_key ++
              ") values (" ++ create_args_str (escaped_fields.length + 1) ++ ")"
            update_sql := "update " ++ backquote table ++ " set " ++
              String.intercalate ", "
                (fields.map (fun f =>
                  backquote (match (attrs.lookup f).bind Field.name with
                    | some n => if n = "" then f else n
                    | none => f) ++ "=?")) ++
              " where " ++ backquote primary_key ++ "=?"
            delete_sql := "delete from " ++ backquote table ++ " where " ++
              backquote primary_key ++ "=?" }

/-! ## Mapping lemmas -/

lemma dictGet_insert_self (d : List (String × Val)) (k : String) (v : Val) :
    dictGet (dictInsert d k v) k = some v := by
  induction d with
  | nil => simp [dictInsert, dictGet]
  | cons p rest ih =>
    by_cases h : p.1 = k
    · simp [dictInsert, dictGet, h]
    · simp [dictInsert, dictGet, h, ih]

lemma dictGet_insert_ne (d : List (String × Val)) {k k' : String} {v : Val} (h : k' ≠ k) :
    dictGet (dictInsert d k' v) k = dictGet d k := by
  induction d with
  | nil => simp [dictInsert, dictGet, h]
  | cons p rest ih =>
    by_cases hp : p.1 = k'
    · simp [dictInsert, dictGet, hp, h]
    · by_cases hk : p.1 = k
      · have hkk : ¬ k = k' := fun e => hp (hk.trans e)
        simp [dictInsert, dictGet, hp, hk, hkk]
      · simp [dictInsert, dictGet, hp, hk, ih]

lemma overlayPath_get_notMem :
    ∀ (mi : List (String × String)) (d : List (String × Val)) (w : List String) (k : String),
      k ∉ mi.map Prod.fst → dictGet (overlayPath mi (d, w)).1 k = dictGet d k := by
  intro mi
  induction mi with
  | nil => intro d w k _; rfl
  | cons p mi ih =>
    intro d w k hk
    simp only [List.map_cons, List.mem_cons, not_or] at hk
    show dictGet (overlayPath mi (dictInsert d p.1 (Val.str p.2), _)).1 k = _
    rw [ih _ _ k hk.2, dictGet_insert_ne _ (fun e : p.1 = k => hk.1 e.symm)]

lemma overlayPath_get_mem :
    ∀ (mi : List (String × String)) (d : List (String × Val)) (w : List String)
      (k : String) (v : String), (mi.map Prod.fst).Nodup → (k, v) ∈ mi →
      dictGet (overlayPath mi (d, w)).1 k = some (Val.str v) := by
  intro mi
  induction mi with
  | nil => intro d w k v _ hm; cases hm
  | cons p mi ih =>
    intro d w k v hnd hm
    simp only [List.map_cons, List.nodup_cons] at hnd
    cases hm with
    | head =>
      show dictGet (overlayPath mi (dictInsert d k (Val.str v), _)).1 k = _
      rw [overlayPath_get_notMem mi _ _ k hnd.1, dictGet_insert_self]
    | tail _ hm' =>
      exact ih _ _ k v hnd.2 hm'

lemma overlayPath_warnings :
    ∀ (mi : List (String × String)) (d : List (String × Val)) (w : List String),
      (mi.map Prod.fst).Nodup →
      (overlayPath mi (d, w)).2 = w ++ (mi.map Prod.fst).filter (fun k => dictHas d k) := by
  intro mi
  induction mi with
  | nil => intro d w _; simp [overlayPath]
  | cons p mi ih =>
    intro d w hnd
    simp only [List.map_cons, List.nodup_cons] at hnd
    show (overlayPath mi (dictInsert d p.1 (Val.str p.2),
        if dictHas d p.1 then w ++ [p.1] else w)).2 = _
    rw [ih _ _ hnd.2]
    have hcong : (mi.map Prod.fst).filter (fun k => dictHas (dictInsert d p.1 (Val.str p.2)) k) =
        (mi.map Prod.fst).filter (fun k => dictHas d k) := by
      apply List.filter_congr
      intro k hk
      have hne : p.1 ≠ k := fun e => hnd.1 (e ▸ hk)
      simp only [dictHas, dictGet_insert_ne _ hne]
    rw [hcong]
    by_cases hp : dictHas d p.1
    · simp [hp, List.filter_cons]
    · simp [hp, List.filter_cons]

lemma filterNamed_cons (n : String) (named : List String) (kw : List (String × Val)) :
    filterNamed (n :: named) kw =
      match dictGet kw n with
      | some v => (n, v) :: filterNamed named kw
      | none => filterNamed named kw := by
  simp only [filterNamed, List.filterMap_cons]
  cases dictGet kw n <;> simp

lemma filterNamed_get (named : List String) (kw : List (String × Val)) (k : String) :
    dictGet (filterNamed named kw) k = if k ∈ named then dictGet kw k else none := by
  induction named with
  | nil => simp [filterNamed, dictGet]
  | cons n named ih =>
    rw [filterNamed_cons]
    cases hv : dictGet kw n with
    | none =>
      by_cases hk : k = n
      · subst hk
        rw [ih]
        by_cases hm : k ∈ named <;> simp [hv, hm]
      · rw [ih]
        simp [hk]
    | some v =>
      by_cases hk : k = n
      · subst hk
        simp [dictGet, hv]
      · show dictGet ((n, v) :: filterNamed named kw) k = _
        simp only [dictGet, show n ≠ k from fun e => hk e.symm, if_false]
        rw [ih]
        simp [hk]

/-! ## The claims -/

/-- C2: the response coercer maps an integer `r` with `100 ≤ r < 600`
to a bare status-code response with no body; a two-element tuple whose
first element is such an integer to a response with that status and
the stringified second element as body; in particular `(404, "not
found")` yields status 404 with body `"not found"`. -/
theorem claim_C2 (render : Json → JsonKVs → String) :
    (∀ n : Int, 100 ≤ n → n < 600 →
      response_factory render (.int n) =
        { status := n, content_type := none, body := none, location := none }) ∧
    (∀ (t : Int) (m : PyVal), 100 ≤ t → t < 600 →
      response_factory render (.tuple2 (.int t) m) =
        { status := t, content_type := some "text/plain;charset=utf-8",
          body := some (pyStr m), location := none }) ∧
    response_factory render (.tuple2 (.int 404) (.str "not found")) =
      { status := 404, content_type := some "text/plain;charset=utf-8",
        body := some "not found", location := none } := by
  refine ⟨?_, ?_, ?_⟩
  · intro n h1 h2
    simp only [response_factory]
    rw [if_pos ⟨h1, h2⟩]
  · intro t m h1 h2
    simp only [response_factory]
    rw [if_pos ⟨h1, h2⟩]
  · simp only [response_factory]
    norm_num
    rfl

/-- C2 witness: the theorem applied at status 204 and at the concrete
tuple `(404, "not found")`. -/
theorem claim_C2_witness :
    response_factory (fun _ _ => "") (.int 204) =
      { status := 204, content_type := none, body := none, location := none } ∧
    response_factory (fun _ _ => "") (.tuple2 (.int 404) (.str "not found")) =
      { status := 404, content_type := some "text/plain;charset=utf-8",
        body := some "not found", location := none } :=
  ⟨(claim_C2 (fun _ _ => "")).1 204 (by norm_num) (by norm_num),
   (claim_C2 (fun _ _ => "")).2.2⟩

/-- C5: an `APIError` raised by the handler is caught at the
invocation boundary and converted to the `{error, data, message}`
mapping, which the coercer then emits as an `application/json`
response with HTTP status 200 (never a transport fault or 4xx/5xx). -/
theorem claim_C5 (h : RequestHandler) (req : Request)
    (func : List (String × Val) → Except APIError PyVal) (e : APIError)
    (kw : List (String × Val)) (warns : List String) (render : Json → JsonKVs → String)
    (hbind : bindArgs h req = .ok (kw, warns)) (hfunc : func kw = .error e) :
    handlerCall h func req = .result (.dict (apiErrorDict e)) warns ∧
    response_factory render (.dict (apiErrorDict e)) =
      { status := 200, content_type := some "application/json;charset=utf-8",
        body := some (json_dumps (.obj (apiErrorDict e))), location := none } := by
  constructor
  · unfold handlerCall
    rw [hbind]
    show (match func kw with
      | .ok r => CallOutcome.result r warns
      | .error e => CallOutcome.result (.dict (apiErrorDict e)) warns) = _
    rw [hfunc]
  · have hg : (apiErrorDict e).get "__template__" = none := by
      simp [apiErrorDict, JsonKVs.get]
    simp [response_factory, hg]

/-- C5 witness: a concrete handler raising a concrete `APIError`
through a handler with an empty signature. -/
theorem claim_C5_witness :
    handlerCall
        { _has_request_arg := false, _has_var_kwarg := false, _has_named_kwargs := false,
          _named_kwargs := [], _required_kwargs := [] }
        (fun _ => .error { error := "value: invalid", data := "id", msg := "bad id" })
        { method := .get, content_type := "", json_body := .null, post_body := [],
          query_string := "", query_params := [], match_info := [] } =
      .result (.dict (apiErrorDict { error := "value: invalid", data := "id", msg := "bad id" }))
        [] ∧
    response_factory (fun _ _ => "")
        (.dict (apiErrorDict { error := "value: invalid", data := "id", msg := "bad id" })) =
      { status := 200, content_type := some "application/json;charset=utf-8",
        body := some (json_dumps
          (.obj (apiErrorDict { error := "value: invalid", data := "id", msg := "bad id" }))),
        location := none } :=
  claim_C5 _ _ _ _ [] [] (fun _ _ => "") (by rfl) (by rfl)

/-- C6: a handler-returned mapping without the reserved key
`"__template__"` is coerced to an `application/json` response whose
body, parsed as JSON, deep-equals the returned mapping. -/
theorem claim_C6 (render : Json → JsonKVs → String) (kvs : JsonKVs)
    (h : kvs.hasKey "__template__" = false) :
    response_factory render (.dict kvs) =
      { status := 200, content_type := some "application/json;charset=utf-8",
        body := some (json_dumps (.obj kvs)), location := none } ∧
    json_loads (json_dumps (.obj kvs)) = some (.obj kvs) := by
  constructor
  · have hg : kvs.get "__template__" = none := by
      unfold JsonKVs.hasKey at h
      cases hv : kvs.get "__template__" with
      | none => rfl
      | some v => rw [hv] at h; cases h
    simp [response_factory, hg]
  · exact json_loads_dumps _

/-- C6 witness: the round trip at the concrete mapping
`{"a": 1, "b": "x"}`. -/
theorem claim_C6_witness :
    JsonKVs.hasKey (.cons "a" (.int 1) (.cons "b" (.str "x") .nil)) "__template__" = false ∧
    (response_factory (fun _ _ => "")
        (.dict (.cons "a" (.int 1) (.cons "b" (.str "x") .nil))) =
      { status := 200, content_type := some "application/json;charset=utf-8",
        body := some (json_dumps (.obj (.cons "a" (.int 1) (.cons "b" (.str "x") .nil)))),
        location := none } ∧
    json_loads (json_dumps (.obj (.cons "a" (.int 1) (.cons "b" (.str "x") .nil)))) =
      some (.obj (.cons "a" (.int 1) (.cons "b" (.str "x") .nil)))) :=
  ⟨by decide, claim_C6 (fun _ _ => "") _ (by decide)⟩

/-- C9: the claimed rollback-and-reraise on SQL failure is dead code.
The `except` clause at orm.py line 74 catches only
`custom_errors.SqlExecutionError`, a class the repository defines and
catches but never raises; `cur.execute` failures are driver (pymysql /
aiomysql) exception types, so with `autocommit` false a real SQL
failure propagates with no rollback: the trace at the failing input is
begin, exec — no rollback — against the claimed begin, exec, rollback.
The transaction is still begun before the SQL; on success the commit
and the affected-row count behave as claimed; the SQL is attempted
exactly once (no retry); and a missing pool makes `execute` and
`select` raise `PoolNotFoundError`. -/
theorem claim_C9 :
    (execute true (.error (.driverError "pymysql OperationalError 1213: deadlock")) false =
      (.error (.raised (.driverError "pymysql OperationalError 1213: deadlock")),
        [DbOp.beginTx, DbOp.execSql])) ∧
    DbOp.rollbackTx ∉
      (execute true (.error (.driverError "pymysql OperationalError 1213: deadlock")) false).2 ∧
    (∀ n : Nat, execute true (.ok n) false =
      (.ok n, [DbOp.beginTx, DbOp.execSql, DbOp.commitTx])) ∧
    (∀ (run : Except PyExc Nat) (ac : Bool),
      ((execute true run ac).2.count DbOp.execSql = 1)) ∧
    (∀ (run : Except PyExc Nat) (ac : Bool),
      execute false run ac = (.error (.poolNotFound "Connection pool is NoneType."), [])) ∧
    (∀ (rows : List (List (String × Json))) (size : Option Nat),
      select false rows size = .error (.poolNotFound "Connection pool is NoneType.")) := by
  refine ⟨rfl, by decide, fun n => rfl, fun run ac => ?_,
    fun run ac => rfl, fun rows size => rfl⟩
  rcases run with e | _
  · cases e <;> cases ac <;> simp [execute]
  · cases ac <;> simp [execute]

/-- Whether a JSON value is an object (`isinstance(params, dict)`). -/
def isObjJson : Json → Bool
  | .obj _ => true
  | _ => false

/-- C3: for a POST request whose handler needs parsed arguments, the
binder negotiates on the Content-Type: missing → 400 "Missing
Content-Type"; `application/json` → parse, failing unless the root is
an object; form/multipart → form fields as a mapping; anything else →
400 "Unsupported Content-Type". -/
theorem claim_C3 (h : RequestHandler) (req : Request)
    (hneed : (h._has_var_kwarg || h._has_named_kwargs || !h._required_kwargs.isEmpty) = true)
    (hm : req.method = .post) :
    (req.content_type = "" →
      parseBody h req = .error "Missing Content-Type." ∧
      "Missing Content-Type".data <+: "Missing Content-Type.".data) ∧
    (req.content_type ≠ "" → req.content_type.toLower.startsWith "application/json" = true →
      (∀ kvs, req.json_body = .obj kvs → parseBody h req = .ok (some (jsonKwOf kvs))) ∧
      (isObjJson req.json_body = false →
        parseBody h req = .error "JSON body must be object.")) ∧
    (req.content_type ≠ "" →
      req.content_type.toLower.startsWith "application/json" = false →
      (req.content_type.toLower.startsWith "application/x-www-form-urlencoded" ||
        req.content_type.toLower.startsWith "multipart/form-data") = true →
      parseBody h req = .ok (some (req.post_body.map (fun p => (p.1, Val.str p.2))))) ∧
    (req.content_type ≠ "" →
      req.content_type.toLower.startsWith "application/json" = false →
      (req.content_type.toLower.startsWith "application/x-www-form-urlencoded" ||
        req.content_type.toLower.startsWith "multipart/form-data") = false →
      parseBody h req = .error ("Unsupported Content-Type: " ++ req.content_type) ∧
      "Unsupported Content-Type".data <+:
        ("Unsupported Content-Type: " ++ req.content_type).data) := by
  refine ⟨fun hct => ?_, fun hct hjson => ?_, fun hct hjson hform => ?_,
    fun hct hjson hform => ?_⟩
  · refine ⟨?_, by decide⟩
    simp [parseBody, hneed, hm, hct]
  · constructor
    · intro kvs hkvs
      simp [parseBody, hneed, hm, hct, hjson, hkvs]
    · intro hobj
      cases hb : req.json_body with
      | obj kvs => rw [hb] at hobj; simp [isObjJson] at hobj
      | null => simp [parseBody, hneed, hm, hct, hjson, hb]
      | bool b => simp [parseBody, hneed, hm, hct, hjson, hb]
      | int n => simp [parseBody, hneed, hm, hct, hjson, hb]
      | str s => simp [parseBody, hneed, hm, hct, hjson, hb]
      | arr xs => simp [parseBody, hneed, hm, hct, hjson, hb]
  · simp [parseBody, hneed, hm, hct, hjson, hform]
  · refine ⟨?_, ?_⟩
    · simp [parseBody, hneed, hm, hct, hjson, hform]
    · rw [String.data_append]
      exact List.IsPrefix.trans (by decide) (List.prefix_append _ _)

/-- C3 witness: a POST with no Content-Type to a handler with a
required keyword-only argument yields the Missing-Content-Type
failure. -/
theorem claim_C3_witness :
    parseBody
        { _has_request_arg := false, _has_var_kwarg := false, _has_named_kwargs := true,
          _named_kwargs := ["id"], _required_kwargs := ["id"] }
        { method := .post, content_type := "", json_body := .null, post_body := [],
          query_string := "", query_params := [], match_info := [] } =
      .error "Missing Content-Type." ∧
    "Missing Content-Type".data <+: "Missing Content-Type.".data :=
  (claim_C3 _ _ (by decide) rfl).1 rfl

/-- C4: once the call-argument mapping is fully built, a missing
required name means the handler is never invoked and the response is a
400 whose text is `"Missing argument: <name>"` for a required name
that is absent. -/
theorem claim_C4 (h : RequestHandler) (req : Request)
    (kw0 : Option (List (String × Val))) (hp : parseBody h req = .ok kw0)
    (hmiss : ∃ name ∈ h._required_kwargs,
      dictHas (injectRequest h (mergeKw h req kw0).1) name = false) :
    ∃ name ∈ h._required_kwargs,
      dictHas (injectRequest h (mergeKw h req kw0).1) name = false ∧
      bindArgs h req = .error ("Missing argument: " ++ name) ∧
      ∀ func, handlerCall h func req = .badRequest ("Missing argument: " ++ name) := by
  have hfind : (h._required_kwargs.find?
      (fun n => !(dictHas (injectRequest h (mergeKw h req kw0).1) n))).isSome := by
    rw [List.find?_isSome]
    obtain ⟨name, hmem, hfalse⟩ := hmiss
    exact ⟨name, hmem, by simp [hfalse]⟩
  obtain ⟨name, hname⟩ := Option.isSome_iff_exists.mp hfind
  have hmem := List.mem_of_find?_eq_some hname
  have hpred := List.find?_some hname
  simp only [Bool.not_eq_true'] at hpred
  have hc : checkRequired h (injectRequest h (mergeKw h req kw0).1) = some name := hname
  have hb : bindArgs h req = .error ("Missing argument: " ++ name) := by
    unfold bindArgs
    rw [hp]
    show (match checkRequired h (injectRequest h (mergeKw h req kw0).1) with
      | some name => Except.error ("Missing argument: " ++ name)
      | none => Except.ok (injectRequest h (mergeKw h req kw0).1, (mergeKw h req kw0).2)) = _
    rw [hc]
  refine ⟨name, hmem, hpred, hb, ?_⟩
  intro func
  unfold handlerCall
  rw [hb]

/-- C4 witness: a handler requiring `id`, invoked with no path
parameter and no body/query field, fails with
`"Missing argument: id"`. -/
theorem claim_C4_witness :
    parseBody
        { _has_request_arg := false, _has_var_kwarg := false, _has_named_kwargs := true,
          _named_kwargs := ["id"], _required_kwargs := ["id"] }
        { method := .get, content_type := "", json_body := .null, post_body := [],
          query_string := "", query_params := [], match_info := [] } = .ok none ∧
    ∃ name ∈ ["id"],
      dictHas (injectRequest
        { _has_request_arg := false, _has_var_kwarg := false, _has_named_kwargs := true,
          _named_kwargs := ["id"], _required_kwargs := ["id"] }
        (mergeKw
          { _has_request_arg := false, _has_var_kwarg := false, _has_named_kwargs := true,
            _named_kwargs := ["id"], _required_kwargs := ["id"] }
          { method := .get, content_type := "", json_body := .null, post_body := [],
            query_string := "", query_params := [], match_info := [] } none).1) name = false ∧
      bindArgs
        { _has_request_arg := false, _has_var_kwarg := false, _has_named_kwargs := true,
          _named_kwargs := ["id"], _required_kwargs := ["id"] }
        { method := .get, content_type := "", json_body := .null, post_body := [],
          query_string := "", query_params := [], match_info := [] } =
        .error ("Missing argument: " ++ name) ∧
      ∀ func, handlerCall
        { _has_request_arg := false, _has_var_kwarg := false, _has_named_kwargs := true,
          _named_kwargs := ["id"], _required_kwargs := ["id"] } func
        { method := .get, content_type := "", json_body := .null, post_body := [],
          query_string := "", query_params := [], match_info := [] } =
        .badRequest ("Missing argument: " ++ name) := by
  constructor
  · rfl
  · exact claim_C4
      { _has_request_arg := false, _has_var_kwarg := false, _has_named_kwargs := true,
        _named_kwargs := ["id"], _required_kwargs := ["id"] }
      { method := .get, content_type := "", json_body := .null, post_body := [],
        query_string := "", query_params := [], match_info := [] }
      none rfl ⟨"id", by decide, rfl⟩

/-- C1: when the binder produced a body/query mapping and the handler
has named parameters but no `**kwargs` catch-all, the mapping is
filtered down to exactly the declared names, path parameters are
overlaid on top (path wins every collision), and one warning is
recorded per collision. -/
theorem claim_C1 (h : RequestHandler) (req : Request) (kw : List (String × Val))
    (hvar : h._has_var_kwarg = false) (hnamed : h._named_kwargs ≠ [])
    (hnd : (req.match_info.map Prod.fst).Nodup) :
    (∀ k v, (k, v) ∈ req.match_info →
      dictGet (mergeKw h req (some kw)).1 k = some (Val.str v)) ∧
    (∀ k, k ∉ req.match_info.map Prod.fst →
      dictGet (mergeKw h req (some kw)).1 k = dictGet (filterNamed h._named_kwargs kw) k) ∧
    (∀ k, k ∉ h._named_kwargs → k ∉ req.match_info.map Prod.fst →
      dictGet (mergeKw h req (some kw)).1 k = none) ∧
    (mergeKw h req (some kw)).2 =
      (req.match_info.map Prod.fst).filter
        (fun k => dictHas (filterNamed h._named_kwargs kw) k) := by
  have hcond : (!h._has_var_kwarg && !h._named_kwargs.isEmpty) = true := by
    simp [hvar, List.isEmpty_iff, hnamed]
  have hm : mergeKw h req (some kw) =
      overlayPath req.match_info (filterNamed h._named_kwargs kw, []) := by
    show overlayPath req.match_info
      ((if !h._has_var_kwarg && !h._named_kwargs.isEmpty then
          filterNamed h._named_kwargs kw
        else kw), []) = _
    rw [if_pos hcond]
  rw [hm]
  refine ⟨fun k v hkv => overlayPath_get_mem _ _ _ _ _ hnd hkv,
    fun k hk => overlayPath_get_notMem _ _ _ _ hk, fun k hkn hkm => ?_, ?_⟩
  · rw [overlayPath_get_notMem _ _ _ _ hkm, filterNamed_get]
    simp [hkn]
  · rw [overlayPath_warnings _ _ _ hnd]
    simp

/-- C1 witness: a handler with named parameters `a`, `b`, a body
supplying `a`, `b`, `c`, and a path parameter colliding on `a`: `c` is
dropped, the path value wins on `a`, and one warning on `a` is
recorded. -/
theorem claim_C1_witness :
    dictGet (mergeKw
        { _has_request_arg := false, _has_var_kwarg := false, _has_named_kwargs := true,
          _named_kwargs := ["a", "b"], _required_kwargs := [] }
        { method := .get, content_type := "", json_body := .null, post_body := [],
          query_string := "a=1", query_params := [],
          match_info := [("a", "path")] }
        (some [("a", .str "body"), ("b", .str "2"), ("c", .str "3")])).1 "a" =
      some (.str "path") ∧
    dictGet (mergeKw
        { _has_request_arg := false, _has_var_kwarg := false, _has_named_kwargs := true,
          _named_kwargs := ["a", "b"], _required_kwargs := [] }
        { method := .get, content_type := "", json_body := .null, post_body := [],
          query_string := "a=1", query_params := [],
          match_info := [("a", "path")] }
        (some [("a", .str "body"), ("b", .str "2"), ("c", .str "3")])).1 "c" = none ∧
    (mergeKw
        { _has_request_arg := false, _has_var_kwarg := false, _has_named_kwargs := true,
          _named_kwargs := ["a", "b"], _required_kwargs := [] }
        { method := .get, content_type := "", json_body := .null, post_body := [],
          query_string := "a=1", query_params := [],
          match_info := [("a", "path")] }
        (some [("a", .str "body"), ("b", .str "2"), ("c", .str "3")])).2 =
      ["a"] := by
  have h := claim_C1
    { _has_request_arg := false, _has_var_kwarg := false, _has_named_kwargs := true,
      _named_kwargs := ["a", "b"], _required_kwargs := [] }
    { method := .get, content_type := "", json_body := .null, post_body := [],
      query_string := "a=1", query_params := [],
      match_info := [("a", "path")] }
    [("a", .str "body"), ("b", .str "2"), ("c", .str "3")]
    rfl (by decide) (by decide)
  refine ⟨h.1 "a" "path" (by decide), h.2.2.1 "c" (by decide) (by decide), ?_⟩
  rw [h.2.2.2]
  decide

/-- C10: the required named-parameter list is always a subset of the
named-parameter list, so the filtering step never removes a required
argument that the body/query mapping supplied. -/
theorem claim_C10 (sig : List Param) :
    (∀ n, n ∈ get_required_kwargs sig → n ∈ get_named_kwargs sig) ∧
    (∀ (kw : List (String × Val)) (n : String), n ∈ get_required_kwargs sig →
      dictHas kw n = true → dictHas (filterNamed (get_named_kwargs sig) kw) n = true) := by
  have hsub : ∀ n, n ∈ get_required_kwargs sig → n ∈ get_named_kwargs sig := by
    intro n hn
    simp only [get_required_kwargs, List.mem_map] at hn
    obtain ⟨p, hp, rfl⟩ := hn
    rw [List.mem_filter] at hp
    simp only [get_named_kwargs, List.mem_map]
    refine ⟨p, ?_, rfl⟩
    rw [List.mem_filter]
    refine ⟨hp.1, ?_⟩
    have h2 := hp.2
    simp only [Bool.and_eq_true, decide_eq_true_eq] at h2 ⊢
    exact h2.1
  refine ⟨hsub, ?_⟩
  intro kw n hn hhas
  rw [dictHas, filterNamed_get, if_pos (hsub n hn)]
  exact hhas

/-- C10 witness: the theorem at the signature `(request, *, id,
page=1, **rest)`. -/
theorem claim_C10_witness :
    ("id" ∈ get_required_kwargs
      [{ name := "request", kind := .positionalOrKeyword, hasDefault := false },
       { name := "id", kind := .keywordOnly, hasDefault := false },
       { name := "page", kind := .keywordOnly, hasDefault := true },
       { name := "rest", kind := .varKeyword, hasDefault := false }]) ∧
    ("id" ∈ get_named_kwargs
      [{ name := "request", kind := .positionalOrKeyword, hasDefault := false },
       { name := "id", kind := .keywordOnly, hasDefault := false },
       { name := "page", kind := .keywordOnly, hasDefault := true },
       { name := "rest", kind := .varKeyword, hasDefault := false }]) ∧
    dictHas (filterNamed (get_named_kwargs
      [{ name := "request", kind := .positionalOrKeyword, hasDefault := false },
       { name := "id", kind := .keywordOnly, hasDefault := false },
       { name := "page", kind := .keywordOnly, hasDefault := true },
       { name := "rest", kind := .varKeyword, hasDefault := false }])
      [("id", .str "7")]) "id" = true := by
  refine ⟨by decide, ?_, ?_⟩
  · exact (claim_C10 _).1 "id" (by decide)
  · exact (claim_C10 _).2 [("id", .str "7")] "id" (by decide) (by decide)

/-! ## C7: the raw-request positioning rule -/

/-- A positional, non-variadic parameter — the kinds
`has_request_arg` rejects after `request`. -/
def positionalKind (p : Param) : Bool :=
  p.kind = ParamKind.positionalOnly || p.kind = ParamKind.positionalOrKeyword

/-- Scanning after `request` was seen: does a positional parameter
occur? -/
def violAfterRequest : List Param → Bool
  | [] => false
  | p :: rest =>
    if p.name = "request" then violAfterRequest rest
    else if positionalKind p then true
    else violAfterRequest rest

/-- The signature contains a parameter named `request` followed,
somewhere later, by a positional non-variadic parameter. -/
def hasRequestViolation : List Param → Bool
  | [] => false
  | p :: rest =>
    if p.name = "request" then violAfterRequest rest else hasRequestViolation rest

lemma has_request_arg_go_spec : ∀ (sig : List Param) (found : Bool),
    has_request_arg_go found sig =
      if (if found then violAfterRequest sig else hasRequestViolation sig) then
        .error "request parameter must be the last named parameter in function"
      else .ok (found || sig.any (fun p => p.name = "request")) := by
  intro sig
  induction sig with
  | nil =>
    intro found
    cases found <;> rfl
  | cons p rest ih =>
    intro found
    rw [has_request_arg_go]
    have hkind : (!(p.kind = ParamKind.varPositional || p.kind = ParamKind.keywordOnly ||
        p.kind = ParamKind.varKeyword) : Bool) = positionalKind p := by
      cases hk : p.kind <;> simp [hk, positionalKind]
    by_cases hn : p.name = "request"
    · rw [if_pos hn, ih true]
      cases found <;>
        simp [violAfterRequest, hasRequestViolation, hn, List.any_cons]
    · rw [if_neg hn]
      cases found with
      | false =>
        simp only [Bool.false_and, if_neg, ite_false, Bool.false_eq_true, if_false]
        rw [ih false]
        simp [hasRequestViolation, hn, List.any_cons]
      | true =>
        simp only [Bool.true_and, hkind]
        cases hb : positionalKind p with
        | true =>
          simp [violAfterRequest, hn, hb]
        | false =>
          simp only [if_neg, Bool.false_eq_true, if_false, ite_false]
          rw [ih true]
          simp [violAfterRequest, hn, hb, List.any_cons]

/-- C7 counterexample: the signature `(request, *, x)` has `request`
followed by the non-variadic named (keyword-only) parameter `x`, yet
registration succeeds, recording that the handler accepts the raw
request — the claim requires registration to fail here. -/
theorem claim_C7_counterexample :
    RequestHandler.init
      [{ name := "request", kind := .positionalOrKeyword, hasDefault := false },
       { name := "x", kind := .keywordOnly, hasDefault := false }] =
      .ok { _has_request_arg := true, _has_var_kwarg := false, _has_named_kwargs := true,
            _named_kwargs := ["x"], _required_kwargs := ["x"] } := rfl

/-- C7 (amended): registration fails exactly when a parameter named
`request` is followed by a positional non-variadic parameter
(positional-only or positional-or-keyword); keyword-only and variadic
parameters may follow it.  Otherwise registration succeeds and records
whether any parameter is named `request`. -/
theorem claim_C7_amended (sig : List Param) :
    RequestHandler.init sig =
      (if hasRequestViolation sig then
        .error "request parameter must be the last named parameter in function"
      else
        .ok { _has_request_arg := sig.any (fun p => p.name = "request"),
              _has_var_kwarg := has_var_kwarg sig,
              _has_named_kwargs := has_named_kwargs sig,
              _named_kwargs := get_named_kwargs sig,
              _required_kwargs := get_required_kwargs sig }) := by
  unfold RequestHandler.init has_request_arg
  rw [has_request_arg_go_spec sig false]
  by_cases hv : hasRequestViolation sig
  · simp [hv]
  · simp [hv]

/-! ## C8: primary-key checking at entity definition time -/

/-- The number of `Field` attributes marked primary key. -/
def countPrimary (attrs : List (String × Field)) : Nat :=
  (attrs.filter (fun kv => kv.2.primary_key)).length

lemma countPrimary_cons (kv : String × Field) (rest : List (String × Field)) :
    countPrimary (kv :: rest) =
      (if kv.2.primary_key then 1 else 0) + countPrimary rest := by
  by_cases h : kv.2.primary_key
  · simp [countPrimary, List.filter_cons, h]
    omega
  · simp [countPrimary, List.filter_cons, h]

lemma scanFields_some : ∀ (attrs : List (String × Field)) (table k0 : String)
    (fields : List String),
    (countPrimary attrs = 0 →
      ∃ fs, scanFields table attrs (some k0) fields = .ok (some k0, fs)) ∧
    (1 ≤ countPrimary attrs →
      ∃ msg, scanFields table attrs (some k0) fields = .error (.duplicatePrimaryKey msg)) := by
  intro attrs
  induction attrs with
  | nil =>
    intro table k0 fields
    refine ⟨fun _ => ⟨fields, rfl⟩, fun h => ?_⟩
    simp [countPrimary] at h
  | cons kv rest ih =>
    obtain ⟨k, v⟩ := kv
    intro table k0 fields
    cases hk : v.primary_key with
    | true =>
      constructor
      · intro h0
        rw [countPrimary_cons] at h0
        simp [hk] at h0
      · intro _
        exact ⟨"Table: " ++ table ++ ", field: " ++ k ++ ".", by simp [scanFields, hk]⟩
    | false =>
      have hc : countPrimary ((k, v) :: rest) = countPrimary rest := by
        rw [countPrimary_cons]
        simp [hk]
      constructor
      · intro h0
        rw [hc] at h0
        obtain ⟨fs, hfs⟩ := (ih table k0 (fields ++ [k])).1 h0
        exact ⟨fs, by simp [scanFields, hk, hfs]⟩
      · intro h1
        rw [hc] at h1
        obtain ⟨msg, hmsg⟩ := (ih table k0 (fields ++ [k])).2 h1
        exact ⟨msg, by simp [scanFields, hk, hmsg]⟩

lemma scanFields_none : ∀ (attrs : List (String × Field)) (table : String)
    (fields : List String),
    (countPrimary attrs = 0 →
      ∃ fs, scanFields table attrs none fields = .ok (none, fs)) ∧
    (countPrimary attrs = 1 →
      ∃ k fs, scanFields table attrs none fields = .ok (some k, fs)) ∧
    (2 ≤ countPrimary attrs →
      ∃ msg, scanFields table attrs none fields = .error (.duplicatePrimaryKey msg)) := by
  intro attrs
  induction attrs with
  | nil =>
    intro table fields
    refine ⟨fun _ => ⟨fields, rfl⟩, fun h => ?_, fun h => ?_⟩ <;> simp [countPrimary] at h
  | cons kv rest ih =>
    obtain ⟨k, v⟩ := kv
    intro table fields
    cases hk : v.primary_key with
    | true =>
      have hc : countPrimary ((k, v) :: rest) = 1 + countPrimary rest := by
        rw [countPrimary_cons]
        simp [hk]
      refine ⟨fun h0 => ?_, fun h1 => ?_, fun h2 => ?_⟩
      · rw [hc] at h0
        omega
      · rw [hc] at h1
        obtain ⟨fs, hfs⟩ := (scanFields_some rest table k fields).1 (by omega)
        exact ⟨k, fs, by simp [scanFields, hk, hfs]⟩
      · rw [hc] at h2
        obtain ⟨msg, hmsg⟩ := (scanFields_some rest table k fields).2 (by omega)
        exact ⟨msg, by simp [scanFields, hk, hmsg]⟩
    | false =>
      have hc : countPrimary ((k, v) :: rest) = countPrimary rest := by
        rw [countPrimary_cons]
        simp [hk]
      refine ⟨fun h0 => ?_, fun h1 => ?_, fun h2 => ?_⟩
      · rw [hc] at h0
        obtain ⟨fs, hfs⟩ := (ih table (fields ++ [k])).1 h0
        exact ⟨fs, by simp [scanFields, hk, hfs]⟩
      · rw [hc] at h1
        obtain ⟨k', fs, hfs⟩ := (ih table (fields ++ [k])).2.1 h1
        exact ⟨k', fs, by simp [scanFields, hk, hfs]⟩
      · rw [hc] at h2
        obtain ⟨msg, hmsg⟩ := (ih table (fields ++ [k])).2.2 h2
        exact ⟨msg, by simp [scanFields, hk, hmsg]⟩

/-- C8: an entity class with zero fields marked primary key, or with
two or more, fails at class-definition time
(`PrimaryKeyNotFoundError` / `DuplicatePrimaryKeyError`); with exactly
one, the class is created with its four SQL templates. -/
theorem claim_C8 (clsName : String) (tableAttr : Option String)
    (attrs : List (String × Field)) :
    (countPrimary attrs = 0 →
      ∃ msg, modelNew clsName tableAttr attrs = .error (.primaryKeyNotFound msg)) ∧
    (2 ≤ countPrimary attrs →
      ∃ msg, modelNew clsName tableAttr attrs = .error (.duplicatePrimaryKey msg)) ∧
    (countPrimary attrs = 1 →
      ∃ schema, modelNew clsName tableAttr attrs = .ok schema) := by
  refine ⟨fun h0 => ?_, fun h2 => ?_, fun h1 => ?_⟩
  · obtain ⟨fs, hfs⟩ := (scanFields_none attrs (tableOf clsName tableAttr) []).1 h0
    refine ⟨"Table: " ++ tableOf clsName tableAttr ++ ".", ?_⟩
    simp only [modelNew]
    rw [hfs]
  · obtain ⟨msg, hmsg⟩ := (scanFields_none attrs (tableOf clsName tableAttr) []).2.2 h2
    refine ⟨msg, ?_⟩
    simp only [modelNew]
    rw [hmsg]
  · obtain ⟨k, fs, hfs⟩ := (scanFields_none attrs (tableOf clsName tableAttr) []).2.1 h1
    cases hmn : modelNew clsName tableAttr attrs with
    | ok s => exact ⟨s, rfl⟩
    | error e =>
      simp only [modelNew] at hmn
      rw [hfs] at hmn
      simp at hmn

/-- C8 witness: the theorem at concrete entity definitions with zero,
two, and exactly one primary-key field. -/
theorem claim_C8_witness :
    (∃ msg, modelNew "User" none
        [("name", { name := none, column_type := "varchar(100)", primary_key := false })] =
      .error (.primaryKeyNotFound msg)) ∧
    (∃ msg, modelNew "User" none
        [("id", { name := none, column_type := "bigint", primary_key := true }),
         ("uid", { name := none, column_type := "bigint", primary_key := true })] =
      .error (.duplicatePrimaryKey msg)) ∧
    (∃ schema, modelNew "User" none
        [("id", { name := none, column_type := "bigint", primary_key := true }),
         ("name", { name := none, column_type := "varchar(100)", primary_key := false })] =
      .ok schema) :=
  ⟨(claim_C8 "User" none _).1 (by decide),
   (claim_C8 "User" none _).2.1 (by decide),
   (claim_C8 "User" none _).2.2 (by decide)⟩

end Aioweb
